import Mathlib

/-!
# Access-Controlled Delivery Gateway — verification development

Shallow embedding of the gateway subsystem of `agent-stack`:

* `server/auth/verifyProjectAccess.ts` — project access verification,
* `launchbase-platform-security/server/middleware/rateLimiter.ts` — fixed-window
  rate limiting with a Redis primary and an in-process fallback map,
* `launchbase-platform-security/server/routes/artifactsRouter.ts` — the
  `GET /api/artifacts/:id` handler (artifact resolution pipeline),
* `server/routers/admin/operatorOS.ts` — the `runs.getLiveState` procedure.

Database queries that may throw are modelled as `Except Unit` results; a
per-table failure flag on the store makes every query on that table raise.
JavaScript `Map` state is modelled as an association list, `Date.now()` as an
explicit `Nat` millisecond clock, and Node's lexical `path.resolve` as
`pathResolve` below.
-/

namespace AgentStack

/-! ## Lexical path model (POSIX semantics of Node `path.resolve`)

`path.resolve(base, p)` with an absolute `base`: if `p` is absolute the result
is the normalization of `p`, otherwise of `base ++ "/" ++ p`.  Normalization
drops empty and `"."` components, and a `".."` component removes the component
before it (at the root it is dropped).  This is exactly Node's lexical
resolution; no filesystem access (and in particular no symlink resolution)
takes place. -/

/-- Character-list prefix test; `strStartsWith` below lifts it to strings.
Mirrors JavaScript `String.prototype.startsWith` (the built-in
`String.startsWith` is byte-position based and does not reduce in the
kernel, so the model carries its own executable definition). -/
def startsWithChars : List Char → List Char → Bool
  | _, [] => true
  | [], _ :: _ => false
  | s :: ss, p :: ps => s == p && startsWithChars ss ps

/-- `s.startsWith(pre)` of JavaScript / Node. -/
def strStartsWith (s pre : String) : Bool :=
  startsWithChars s.data pre.data

/-- Split a character list on `'/'` (the POSIX separator). -/
def splitSlashAux : List Char → List Char → List String
  | [], acc => [String.mk acc.reverse]
  | c :: cs, acc =>
    if c = '/' then String.mk acc.reverse :: splitSlashAux cs []
    else splitSlashAux cs (c :: acc)

/-- Split a path string into its `'/'`-separated components. -/
def splitSlash (s : String) : List String :=
  splitSlashAux s.data []

/-- One step of path normalization over the component list. -/
def normStep (acc : List String) (c : String) : List String :=
  if c = "" ∨ c = "." then acc
  else if c = ".." then acc.dropLast
  else acc ++ [c]

/-- Join path components back into an absolute path string. -/
def joinComponents : List String → String
  | [] => ""
  | c :: cs => "/" ++ c ++ joinComponents cs

/-- Normalize an absolute POSIX path string (resolve `.` and `..`, collapse
repeated separators, drop any trailing separator). -/
def normalizeAbs (s : String) : String :=
  match (splitSlash s).foldl normStep [] with
  | [] => "/"
  | comps => joinComponents comps

/-- Node `path.resolve(base, p)` for an absolute `base` (lexical). -/
def pathResolve (base p : String) : String :=
  if strStartsWith p "/" then normalizeAbs p else normalizeAbs (base ++ "/" ++ p)

/-! ## Metadata store model (`drizzle/schema` rows used by the gateway) -/

/-- A row of the `users` table (only the columns the gateway reads). -/
structure User where
  id : Nat
  role : String
deriving DecidableEq

/-- A row of the `projects` table. -/
structure Project where
  id : String
  createdBy : Nat
deriving DecidableEq

/-- A row of the `projectCollaborators` table. -/
structure Collaborator where
  projectId : String
  userId : Nat
  status : String
deriving DecidableEq

/-- A row of the `agentArtifacts` table (columns read by the router).
`path` is the stored storage locator. -/
structure Artifact where
  id : String
  runId : Nat
  type : String
  path : String
  filename : Option String
  mimeType : Option String
  sizeBytes : Option Nat
deriving DecidableEq

/-- A row of the `agentRuns` table (columns read by the gateway).
`stateStepCount`/`stateMaxSteps` model the fields of the `stateJson` blob. -/
structure Run where
  id : Nat
  projectId : Option String
  createdBy : Nat
  status : String
  errorMessage : Option String
  stateStepCount : Option Nat
  stateMaxSteps : Option Nat
deriving DecidableEq

/-- A row of the `agentEvents` table. `payloadTool`/`payloadArgs` model the
fields of the event `payload` blob. -/
structure AgentEvent where
  runId : Nat
  ts : Nat
  type : String
  payloadTool : Option String
  payloadArgs : Option String
deriving DecidableEq

/-- The queryable store.  The `fail*` flags model a table whose queries throw
(the thrown exception is the `Except.error` of the query functions below). -/
structure Db where
  users : List User
  projects : List Project
  collaborators : List Collaborator
  artifacts : List Artifact
  runs : List Run
  events : List AgentEvent
  failUsers : Bool := false
  failProjects : Bool := false
  failCollaborators : Bool := false

/-- `db.select().from(users).where(eq(users.id, userId)).limit(1)`:
the first matching row, or a thrown error when the table is failing. -/
def queryUser (db : Db) (userId : Nat) : Except Unit (Option User) :=
  if db.failUsers then .error () else .ok (db.users.find? (fun u => u.id == userId))

/-- `db.select().from(projects).where(eq(projects.id, projectId)).limit(1)`. -/
def queryProject (db : Db) (projectId : String) : Except Unit (Option Project) :=
  if db.failProjects then .error ()
  else .ok (db.projects.find? (fun p => p.id == projectId))

/-- `db.select().from(projectCollaborators).where(and(...)).limit(1)` with the
three equalities on projectId, userId and status = "active". -/
def queryCollaborator (db : Db) (projectId : String) (userId : Nat) :
    Except Unit (Option Collaborator) :=
  if db.failCollaborators then .error ()
  else .ok (db.collaborators.find? (fun c =>
    c.projectId == projectId && c.userId == userId && c.status == "active"))

/-! ## `verifyProjectAccess` (server/auth/verifyProjectAccess.ts, lines 27-98)

The TS function wraps its three queries in one `try`; a throw anywhere inside
jumps to the `catch`, which returns `false`.  Propagating each query's
`Except.error` directly to a `false` result is the same control flow. -/

/-- `verifyProjectAccess(userId, projectId)`.  `dbOpt = none` models
`getDb()` resolving to an unavailable handle. -/
def verifyProjectAccess (dbOpt : Option Db) (userId : Nat) (projectId : String) : Bool :=
  match dbOpt with
  | none => false
  | some db =>
    match queryUser db userId with
    | .error _ => false
    | .ok none => false
    | .ok (some user) =>
      if user.role == "admin" then true
      else
        match queryProject db projectId with
        | .error _ => false
        | .ok none => false
        | .ok (some project) =>
          if project.createdBy == userId then true
          else
            match queryCollaborator db projectId userId with
            | .error _ => false
            | .ok none => false
            | .ok (some _) => true

/-- The access predicate exactly as claim C3 words it (for refinement
comparison with `verifyProjectAccess`): admin, or project row with
`createdBy = userId`, or an active collaboration row — the last disjunct
not requiring the project row to exist. -/
def claimedAccessB (db : Db) (userId : Nat) (projectId : String) : Bool :=
  (match db.users.find? (fun u => u.id == userId) with
   | some user => user.role == "admin"
   | none => false)
  || (match db.projects.find? (fun p => p.id == projectId) with
      | some project => project.createdBy == userId
      | none => false)
  || (db.collaborators.find? (fun c =>
        c.projectId == projectId && c.userId == userId && c.status == "active")).isSome

/-- A store with a stale active collaboration row: user 1 exists and is not
an admin, the `projects` table has no row `"p1"`, yet an active
collaboration row `("p1", 1)` is present. -/
def staleCollabDb : Db :=
  { users := [⟨1, "user"⟩], projects := [], collaborators := [⟨"p1", 1, "active"⟩]
    artifacts := [], runs := [], events := [] }

/-! ## Rate limiter (launchbase-platform-security/server/middleware/rateLimiter.ts)

`checkRateLimit(key, opts)` first tries the Redis transaction
(`INCR key; TTL key`); on any Redis error it falls through to the in-process
`mem` map.  The JS `Map` is modelled as an association list (`MemMap`), the
optional Redis connection as `Option RedisState` whose `failing` flag makes
every command raise, and `Date.now()` as the explicit `now` argument. -/

/-- `type LimitOptions = { max: number; windowSec: number }`. -/
structure LimitOptions where
  max : Nat
  windowSec : Nat
deriving DecidableEq

/-- The value returned by `checkRateLimit`. -/
structure RLInfo where
  allowed : Bool
  current : Nat
  limit : Nat
  resetAtMs : Nat
deriving DecidableEq

/-- `type Counter = { count: number; resetAtMs: number }`. -/
structure Counter where
  count : Nat
  resetAtMs : Nat
deriving DecidableEq

/-- The module-level `mem = new Map<string, Counter>()`. -/
abbrev MemMap := List (String × Counter)

/-- `mem.get(key)`. -/
def memGet (m : MemMap) (key : String) : Option Counter :=
  (m.find? (fun kv => kv.1 == key)).map (fun kv => kv.2)

/-- `mem.set(key, c)` — replaces the existing entry for `key`, if any. -/
def memSet : MemMap → String → Counter → MemMap
  | [], key, c => [(key, c)]
  | kv :: rest, key, c =>
    if kv.1 == key then (key, c) :: rest else kv :: memSet rest key c

/-- The in-process fallback path of `checkRateLimit` (lines 122-137):
fresh window when the key is absent or its `resetAtMs` has passed, otherwise
increment inside the current window.  Returns the info and the updated map. -/
def memCheck (m : MemMap) (key : String) (opts : LimitOptions) (now : Nat) :
    RLInfo × MemMap :=
  let windowMs := opts.windowSec * 1000
  match memGet m key with
  | none =>
    let resetAtMs := now + windowMs
    (⟨true, 1, opts.max, resetAtMs⟩, memSet m key ⟨1, resetAtMs⟩)
  | some existing =>
    if existing.resetAtMs ≤ now then
      let resetAtMs := now + windowMs
      (⟨true, 1, opts.max, resetAtMs⟩, memSet m key ⟨1, resetAtMs⟩)
    else
      let count := existing.count + 1
      (⟨decide (count ≤ opts.max), count, opts.max, existing.resetAtMs⟩,
       memSet m key ⟨count, existing.resetAtMs⟩)

/-- State of the optional Redis backend: per-key counters, per-key remaining
TTLs in seconds (`none` models TTL -1, i.e. no expiry set), and a `failing`
flag under which every command raises. -/
structure RedisState where
  failing : Bool
  counts : List (String × Nat)
  ttls : List (String × Nat)
deriving DecidableEq

/-- Redis association-list lookup. -/
def redisLookup (l : List (String × Nat)) (key : String) : Option Nat :=
  (l.find? (fun kv => kv.1 == key)).map (fun kv => kv.2)

/-- Redis association-list store. -/
def redisStore : List (String × Nat) → String → Nat → List (String × Nat)
  | [], key, v => [(key, v)]
  | kv :: rest, key, v =>
    if kv.1 == key then (key, v) :: rest else kv :: redisStore rest key v

/-- The Redis branch of `checkRateLimit` (lines 98-116): the
`INCR`/`TTL` transaction, `EXPIRE` when the key had no TTL, and the
`resetAtMs` computation `now + max(0, (ttl > 0 ? ttl : windowSec) * 1000)`.
Raises (`Except.error`) when the backend is failing. -/
def redisCheck (r : RedisState) (key : String) (opts : LimitOptions) (now : Nat) :
    Except Unit (RLInfo × RedisState) :=
  if r.failing then .error ()
  else
    let count := (redisLookup r.counts key).getD 0 + 1
    let ttl? := redisLookup r.ttls key
    let r' : RedisState :=
      { r with
        counts := redisStore r.counts key count
        ttls := match ttl? with
          | none => redisStore r.ttls key opts.windowSec
          | some _ => r.ttls }
    let resetAtMs := now + (match ttl? with
      | some ttl => if 0 < ttl then ttl else opts.windowSec
      | none => opts.windowSec) * 1000
    .ok (⟨decide (count ≤ opts.max), count, opts.max, resetAtMs⟩, r')

/-- `checkRateLimit(key, opts)` (lines 84-137): Redis when configured and
healthy; on a Redis error, silent fallback to the in-process map. -/
def checkRateLimit (redis? : Option RedisState) (m : MemMap) (key : String)
    (opts : LimitOptions) (now : Nat) : RLInfo × Option RedisState × MemMap :=
  match redis? with
  | some r =>
    match redisCheck r key opts now with
    | .ok (info, r') => (info, some r', m)
    | .error _ =>
      let rm := memCheck m key opts now
      (rm.1, some r, rm.2)
  | none =>
    let rm := memCheck m key opts now
    (rm.1, none, rm.2)

/-- Sequential `checkRateLimit` calls on the in-process path, one per entry of
`times`, threading the map. -/
def memCheckSeq : MemMap → String → LimitOptions → List Nat → List RLInfo × MemMap
  | m, _, _, [] => ([], m)
  | m, key, opts, t :: ts =>
    let r := memCheck m key opts t
    let rest := memCheckSeq r.2 key opts ts
    (r.1 :: rest.1, rest.2)

/-! ## Artifact resolution
(launchbase-platform-security/server/routes/artifactsRouter.ts, GET /:id)

The handler's distinct exits become the constructors of `ArtifactOutcome`.
`fileKind` models `stat`: `none` when the path does not exist (the `stat`
throw), `some true` for a regular file, `some false` otherwise.  `sign`
models `generateS3SignedUrl`, and `access` the call to
`verifyProjectAccess` (instantiated with the real verifier in
`artifactsGetReal`).  JavaScript truthiness of `!run.projectId` and of the
`||` header fallbacks treats the empty string like `null`. -/

/-- The response headers set on a successful local stream (lines 115-121). -/
structure RespHeaders where
  contentType : String
  contentLength : Nat
  contentDisposition : String
  cacheControl : String
deriving DecidableEq

/-- JavaScript `v || d` for a nullable string: `null`, `undefined` and `""`
are falsy. -/
def orDefault (v : Option String) (d : String) : String :=
  match v with
  | none => d
  | some s => if s = "" then d else s

/-- The `Content-Disposition` value
``inline; filename="${artifact.filename || `artifact-${artifactId}`}"``
(line 119): the stored filename (or the id-derived fallback) is interpolated
verbatim between the two quotes. -/
def contentDispositionFor (filename : Option String) (artifactId : String) : String :=
  "inline; filename=\"" ++ orDefault filename ("artifact-" ++ artifactId) ++ "\""

/-- All four response headers, as functions of the stored artifact row and
the artifact id used for the lookup (lines 115-121). -/
def headersFor (a : Artifact) (artifactId : String) : RespHeaders :=
  { contentType := orDefault a.mimeType "application/octet-stream"
    contentLength := a.sizeBytes.getD 0
    contentDisposition := contentDispositionFor a.filename artifactId
    cacheControl := "private, max-age=3600" }

/-- The distinct exits of the GET /:id handler. -/
inductive ArtifactOutcome where
  | unauthorized                                  -- 401 (no principal)
  | dbUnavailable                                 -- 503
  | notFoundArtifact                              -- 404
  | notFoundRun                                   -- 404
  | runNotAttached                                -- 403 (null projectId)
  | accessDenied                                  -- 403 (verifier said no)
  | invalidPath                                   -- 403 (containment check)
  | fileNotFound                                  -- 404 (stat)
  | redirect (url : String)                       -- 302 (signed URL)
  | streamFile (localPath : String) (headers : RespHeaders)  -- 200
deriving DecidableEq

/-- HTTP status of each exit. -/
def statusCode : ArtifactOutcome → Nat
  | .unauthorized => 401
  | .dbUnavailable => 503
  | .notFoundArtifact => 404
  | .notFoundRun => 404
  | .runNotAttached => 403
  | .accessDenied => 403
  | .invalidPath => 403
  | .fileNotFound => 404
  | .redirect _ => 302
  | .streamFile _ _ => 200

/-- The GET /api/artifacts/:id handler (lines 28-131).  `user?` is
`req.user` (`none` when unauthenticated), `db?` the `getDb()` result,
`dirResolved` the value of `path.resolve(process.env.ARTIFACTS_DIR ||
"/tmp/artifacts")`, already canonical and absolute. -/
def artifactsGet (user? : Option Nat) (db? : Option Db) (dirResolved : String)
    (fileKind : String → Option Bool) (sign : String → String)
    (access : Nat → String → Bool) (artifactId : String) : ArtifactOutcome :=
  match user? with
  | none => .unauthorized
  | some uid =>
    match db? with
    | none => .dbUnavailable
    | some db =>
      match db.artifacts.find? (fun a => a.id == artifactId) with
      | none => .notFoundArtifact
      | some artifact =>
        match db.runs.find? (fun r => r.id == artifact.runId) with
        | none => .notFoundRun
        | some run =>
          match run.projectId with
          | none => .runNotAttached
          | some pid =>
            if pid = "" then .runNotAttached
            else if access uid pid = false then .accessDenied
            else if strStartsWith artifact.path "s3://" then .redirect (sign artifact.path)
            else
              let artifactsDir := dirResolved ++ "/"
              let localPath := pathResolve artifactsDir artifact.path
              if strStartsWith localPath artifactsDir = false then .invalidPath
              else
                match fileKind localPath with
                | none => .fileNotFound
                | some false => .fileNotFound
                | some true => .streamFile localPath (headersFor artifact artifactId)

/-- The handler with the access check instantiated to the real
`verifyProjectAccess` over the same store handle. -/
def artifactsGetReal (user? : Option Nat) (db? : Option Db) (dirResolved : String)
    (fileKind : String → Option Bool) (sign : String → String)
    (artifactId : String) : ArtifactOutcome :=
  artifactsGet user? db? dirResolved fileKind sign
    (fun uid pid => verifyProjectAccess db? uid pid) artifactId

/-! ## Live state (server/routers/admin/operatorOS.ts, runs.getLiveState) -/

/-- The projection returned on success (fields of the handler's return
object).  `budgetRemaining` is `Math.max(0, 1 - currentStep / maxSteps)`
over rationals, with the division-by-zero case guarded explicitly (the
handler's IEEE value for `maxSteps = 0` is not a rational; no claim depends
on that corner). -/
structure LiveProjection where
  runId : Nat
  status : String
  currentStep : Nat
  maxSteps : Nat
  currentTool : Option String
  currentToolArgs : Option String
  lastError : Option String
  budgetRemaining : ℚ
  lastActivityAt : Nat
  awaitingApproval : Bool
deriving DecidableEq

/-- The distinct exits of `runs.getLiveState` (TRPCError codes and the
successful projection). -/
inductive LiveOutcome where
  | tooManyRequests                 -- TOO_MANY_REQUESTS
  | dbUnavailable                   -- INTERNAL_SERVER_ERROR
  | notFoundRun                     -- NOT_FOUND
  | runNotAttached                  -- PRECONDITION_FAILED
  | accessDenied                    -- FORBIDDEN
  | ok (proj : LiveProjection)      -- 200
deriving DecidableEq

/-- Insert an event into a list sorted by descending timestamp. -/
def insertTsDesc (e : AgentEvent) : List AgentEvent → List AgentEvent
  | [] => [e]
  | x :: xs => if x.ts ≤ e.ts then e :: x :: xs else x :: insertTsDesc e xs

/-- `orderBy(desc(agentEvents.ts))`. -/
def sortTsDesc (l : List AgentEvent) : List AgentEvent :=
  l.foldr insertTsDesc []

/-- `runs.getLiveState` (operatorOS.ts lines 720-795): rate limit first
(key `rl:live_poll:u:{userId}`, 90/60s), then db, run lookup, the null
projectId guard, `verifyProjectAccess`, and finally the pure projection
from the newest 10 events.  Returns the outcome together with the updated
limiter state. -/
def getLiveState (db? : Option Db) (redis? : Option RedisState) (m : MemMap)
    (now : Nat) (userId : Nat) (access : Nat → String → Bool) (runId : Nat) :
    LiveOutcome × Option RedisState × MemMap :=
  let key := "rl:live_poll:u:" ++ toString userId
  let rl := checkRateLimit redis? m key ⟨90, 60⟩ now
  if rl.1.allowed = false then (.tooManyRequests, rl.2)
  else
    match db? with
    | none => (.dbUnavailable, rl.2)
    | some db =>
      match db.runs.find? (fun r => r.id == runId) with
      | none => (.notFoundRun, rl.2)
      | some run =>
        match run.projectId with
        | none => (.runNotAttached, rl.2)
        | some pid =>
          if pid = "" then (.runNotAttached, rl.2)
          else if access userId pid = false then (.accessDenied, rl.2)
          else
            let events := (sortTsDesc (db.events.filter (fun e => e.runId == runId))).take 10
            let currentStep := run.stateStepCount.getD 0
            let maxSteps := run.stateMaxSteps.getD 10
            let lastToolCall := events.find? (fun e => e.type == "tool_call")
            (.ok
              { runId := runId
                status := run.status
                currentStep := currentStep
                maxSteps := maxSteps
                currentTool := lastToolCall.bind (fun e => e.payloadTool)
                currentToolArgs := lastToolCall.bind (fun e => e.payloadArgs)
                lastError := run.errorMessage
                budgetRemaining :=
                  if maxSteps = 0 then 0
                  else max 0 (1 - (currentStep : ℚ) / (maxSteps : ℚ))
                lastActivityAt := ((events.head?.map (fun e => e.ts)).getD now)
                awaitingApproval := run.status == "awaiting_approval" }, rl.2)

/-! ## Concrete stores used by the concrete-instance theorems -/

/-- A store whose single artifact carries the classic traversal locator
`"../../etc/passwd"`, attached to a project-bound run, requested by an
admin. -/
def traversalDb : Db :=
  { users := [⟨1, "admin"⟩], projects := [], collaborators := []
    artifacts := [⟨"t1", 7, "file", "../../etc/passwd", none, none, none⟩]
    runs := [⟨7, some "p1", 1, "done", none, none, none⟩]
    events := [] }

/-- A store whose single artifact's locator resolves into the sibling
directory `/data/artifacts-other` of a root `/data/artifacts`. -/
def siblingDb : Db :=
  { users := [⟨1, "admin"⟩], projects := [], collaborators := []
    artifacts := [⟨"s1", 7, "file", "../artifacts-other/secret.txt", none, none, none⟩]
    runs := [⟨7, some "p1", 1, "done", none, none, none⟩]
    events := [] }

/-- A stored filename holding a quote and a CR/LF sequence. -/
def crlfName : String := "a\"b\r\nX: y"

/-- An artifact row whose stored filename is `crlfName`. -/
def crlfArtifact : Artifact :=
  ⟨"g1", 7, "log", "logs/x.txt", some crlfName, some "text/plain", some 5⟩

/-- A store serving `crlfArtifact` from a project-bound run to an admin. -/
def crlfNameDb : Db :=
  { users := [⟨1, "admin"⟩], projects := [], collaborators := []
    artifacts := [crlfArtifact]
    runs := [⟨7, some "p1", 1, "done", none, none, none⟩]
    events := [] }

/-- A store whose run has a null `projectId`; the run's creator (user 1,
also an admin) owns the artifact's parent run. -/
def unattachedDb : Db :=
  { users := [⟨1, "admin"⟩], projects := [], collaborators := []
    artifacts := [⟨"u1", 7, "file", "x.bin", none, none, none⟩]
    runs := [⟨7, none, 1, "done", none, none, none⟩]
    events := [] }

/-! ## Lemmas about the in-process counter map -/

lemma memGet_memSet_self (m : MemMap) (key : String) (c : Counter) :
    memGet (memSet m key c) key = some c := by
  induction m with
  | nil => simp [memGet, memSet]
  | cons kv rest ih =>
    by_cases h : kv.1 == key
    · simp [memSet, h, memGet]
    · simpa [memSet, h, memGet, List.find?] using ih

/-- Inside a live window, each successive check increments the stored count
and reports it, keeping the window end fixed. -/
lemma memCheckSeq_inWindow (key : String) (opts : LimitOptions) (ts : List Nat) :
    ∀ (m : MemMap) (c R : Nat),
      memGet m key = some ⟨c, R⟩ → (∀ t ∈ ts, t < R) →
      (memCheckSeq m key opts ts).1 =
        (List.range ts.length).map
          (fun i => ⟨decide (c + i + 1 ≤ opts.max), c + i + 1, opts.max, R⟩) ∧
      memGet (memCheckSeq m key opts ts).2 key = some ⟨c + ts.length, R⟩ := by
  induction ts with
  | nil => intro m c R hm _; simp [memCheckSeq, hm]
  | cons t ts ih =>
    intro m c R hm hts
    have hnot : ¬ (R ≤ t) := by
      have := hts t (by simp)
      omega
    have hstep : memCheck m key opts t =
        (⟨decide (c + 1 ≤ opts.max), c + 1, opts.max, R⟩, memSet m key ⟨c + 1, R⟩) := by
      simp [memCheck, hm, hnot]
    have hm' : memGet (memSet m key ⟨c + 1, R⟩) key = some ⟨c + 1, R⟩ :=
      memGet_memSet_self m key _
    have hrest : ∀ t' ∈ ts, t' < R := fun t' h' => hts t' (List.mem_cons_of_mem _ h')
    obtain ⟨ih1, ih2⟩ := ih (memSet m key ⟨c + 1, R⟩) (c + 1) R hm' hrest
    constructor
    · show (memCheck m key opts t).1 ::
          (memCheckSeq (memCheck m key opts t).2 key opts ts).1 = _
      rw [hstep]
      simp only [ih1, List.length_cons, List.range_succ_eq_map, List.map_cons, List.map_map]
      refine congrArg₂ List.cons (by norm_num) ?_
      simp only [Function.comp, List.map_inj_left, decide_eq_decide, RLInfo.mk.injEq]
      intro a _
      exact ⟨by constructor <;> (intro h; omega), by omega, trivial, trivial⟩
    · show memGet (memCheckSeq (memCheck m key opts t).2 key opts ts).2 key = _
      rw [hstep]
      simpa [Nat.add_comm, Nat.add_assoc, Nat.add_left_comm] using ih2

/-- C5.  In-process path, `max = 90`, `windowSec = 60`: on a fresh key whose
window opens at `t0`, the 91 sequential checks at times inside the window
return `current = 1, 2, …, 91`, all allowed except the 91st, which is denied
with `current = 91` (the denial still increments and reports the true
count); after `resetAt = t0 + 60000` has passed, the next check opens a
brand-new window with `allowed = true, current = 1`. -/
theorem rate_limit_window_sequence
    (m : MemMap) (key : String) (t0 : Nat) (ts : List Nat) (t' : Nat)
    (hfresh : memGet m key = none) (hlen : ts.length = 90)
    (hwin : ∀ t ∈ ts, t < t0 + 60000) (hpast : t0 + 60000 ≤ t') :
    (∀ i, i < 90 →
      (memCheckSeq m key ⟨90, 60⟩ (t0 :: ts)).1.get? i =
        some ⟨true, i + 1, 90, t0 + 60000⟩) ∧
    (memCheckSeq m key ⟨90, 60⟩ (t0 :: ts)).1.get? 90 =
      some ⟨false, 91, 90, t0 + 60000⟩ ∧
    memGet (memCheckSeq m key ⟨90, 60⟩ (t0 :: ts)).2 key = some ⟨91, t0 + 60000⟩ ∧
    (memCheck (memCheckSeq m key ⟨90, 60⟩ (t0 :: ts)).2 key ⟨90, 60⟩ t').1 =
      ⟨true, 1, 90, t' + 60000⟩ ∧
    memGet (memCheck (memCheckSeq m key ⟨90, 60⟩ (t0 :: ts)).2 key ⟨90, 60⟩ t').2 key =
      some ⟨1, t' + 60000⟩ := by
  have hstep0 : memCheck m key ⟨90, 60⟩ t0 =
      (⟨true, 1, 90, t0 + 60000⟩, memSet m key ⟨1, t0 + 60000⟩) := by
    simp [memCheck, hfresh]
  have hm1 : memGet (memSet m key ⟨1, t0 + 60000⟩) key = some ⟨1, t0 + 60000⟩ :=
    memGet_memSet_self m key _
  obtain ⟨h1, h2⟩ :=
    memCheckSeq_inWindow key ⟨90, 60⟩ ts (memSet m key ⟨1, t0 + 60000⟩) 1 (t0 + 60000) hm1 hwin
  have hseq1 : (memCheckSeq m key ⟨90, 60⟩ (t0 :: ts)).1 =
      ⟨true, 1, 90, t0 + 60000⟩ ::
        (List.range ts.length).map
          (fun i => ⟨decide (1 + i + 1 ≤ 90), 1 + i + 1, 90, t0 + 60000⟩) := by
    show (memCheck m key ⟨90, 60⟩ t0).1 ::
        (memCheckSeq (memCheck m key ⟨90, 60⟩ t0).2 key ⟨90, 60⟩ ts).1 = _
    rw [hstep0]
    simpa using h1
  have hseq2 : memGet (memCheckSeq m key ⟨90, 60⟩ (t0 :: ts)).2 key =
      some ⟨91, t0 + 60000⟩ := by
    show memGet (memCheckSeq (memCheck m key ⟨90, 60⟩ t0).2 key ⟨90, 60⟩ ts).2 key = _
    rw [hstep0]
    simpa [hlen] using h2
  refine ⟨?_, ?_, hseq2, ?_, ?_⟩
  · intro i hi
    rcases Nat.eq_zero_or_pos i with h0 | hpos
    · subst h0; simp [hseq1]
    · obtain ⟨j, rfl⟩ := Nat.exists_eq_add_of_lt hpos
      rw [hseq1]
      have hj : j + 1 < 90 + 1 := by omega
      have hj' : j < ts.length := by omega
      simp only [Nat.zero_add, List.get?_cons_succ, List.get?_map]
      rw [List.get?_range hj']
      have : 1 + j + 1 ≤ 90 := by omega
      simp [this]
      omega
  · rw [hseq1]
    have h89 : (89 : ℕ) < ts.length := by omega
    simp only [List.get?_cons_succ, List.get?_map]
    rw [List.get?_range h89]
    norm_num
  · have hnowR : (⟨91, t0 + 60000⟩ : Counter).resetAtMs ≤ t' := hpast
    simp [memCheck, hseq2, hnowR]
  · simp [memCheck, hseq2, hpast, memGet_memSet_self]

/-- C5 witness: 91 checks at `t0 = 5` (90 of them at times 6…95 inside the
window), then one at `t' = 60005`. -/
theorem rate_limit_window_sequence_witness :
    (memCheckSeq [] "k" ⟨90, 60⟩ (5 :: List.replicate 90 6)).1.get? 0 =
      some ⟨true, 1, 90, 5 + 60000⟩ ∧
    (memCheckSeq [] "k" ⟨90, 60⟩ (5 :: List.replicate 90 6)).1.get? 90 =
      some ⟨false, 91, 90, 5 + 60000⟩ ∧
    (memCheck (memCheckSeq [] "k" ⟨90, 60⟩ (5 :: List.replicate 90 6)).2 "k" ⟨90, 60⟩ 60005).1 =
      ⟨true, 1, 90, 60005 + 60000⟩ := by
  have h := rate_limit_window_sequence [] "k" 5 (List.replicate 90 6) 60005
    (by decide) (by simp) (by intro t ht; simp at ht; omega) (by omega)
  exact ⟨h.1 0 (by omega), h.2.1, h.2.2.2.1⟩

/-- C6.  When the Redis backend is configured but raises on the call, the
result is exactly the honestly computed in-process decision: the same info
and map as `memCheck`, identical to what `checkRateLimit` returns when no
backend is configured at all; the call itself never raises. -/
theorem redis_failure_falls_back_to_memory
    (r : RedisState) (m : MemMap) (key : String) (opts : LimitOptions) (now : Nat)
    (hfail : r.failing = true) :
    checkRateLimit (some r) m key opts now =
      ((memCheck m key opts now).1, some r, (memCheck m key opts now).2) ∧
    (checkRateLimit (some r) m key opts now).1 =
      (checkRateLimit none m key opts now).1 ∧
    (checkRateLimit (some r) m key opts now).2.2 =
      (checkRateLimit none m key opts now).2.2 := by
  refine ⟨?_, ?_, ?_⟩ <;> simp [checkRateLimit, redisCheck, hfail]

/-- C6 witness: a backend failing on every call, on a fresh key at `now = 0`. -/
theorem redis_failure_falls_back_to_memory_witness :
    checkRateLimit (some ⟨true, [], []⟩) [] "k" ⟨60, 60⟩ 0 =
      ((memCheck [] "k" ⟨60, 60⟩ 0).1, some ⟨true, [], []⟩, (memCheck [] "k" ⟨60, 60⟩ 0).2) ∧
    (checkRateLimit (some ⟨true, [], []⟩) [] "k" ⟨60, 60⟩ 0).1 =
      (checkRateLimit none [] "k" ⟨60, 60⟩ 0).1 :=
  ⟨(redis_failure_falls_back_to_memory ⟨true, [], []⟩ [] "k" ⟨60, 60⟩ 0 rfl).1,
   (redis_failure_falls_back_to_memory ⟨true, [], []⟩ [] "k" ⟨60, 60⟩ 0 rfl).2.1⟩

/-- C10 counterexample.  With `max = 0` the in-process path's fresh-window
branch hardcodes `allowed: true` with `current = 1 > 0 = limit`, so
`allowed` is not `current ≤ limit` there: the claimed invariant fails as
stated for `opts.max = 0`. -/
theorem check_rate_limit_invariant_counterexample :
    (checkRateLimit none [] "k" ⟨0, 60⟩ 0).1.allowed = true ∧
    (checkRateLimit none [] "k" ⟨0, 60⟩ 0).1.current = 1 ∧
    (checkRateLimit none [] "k" ⟨0, 60⟩ 0).1.limit = 0 ∧
    ¬ ((checkRateLimit none [] "k" ⟨0, 60⟩ 0).1.current ≤
       (checkRateLimit none [] "k" ⟨0, 60⟩ 0).1.limit) := by
  refine ⟨by decide, by decide, by decide, by decide⟩

/-- C10 (amended: a positive `max`).  For `opts.max ≥ 1`, every
`checkRateLimit` result, on both backends, satisfies: `limit` is the
configured `max`, `current ≥ 1`, and `allowed` holds exactly when
`current ≤ limit`; on the in-process path (no backend, or a failing
backend) the counter stored in the map afterwards equals the returned
`current` (and its window end the returned `resetAtMs`). -/
theorem check_rate_limit_invariant (redis? : Option RedisState) (m : MemMap)
    (key : String) (opts : LimitOptions) (now : Nat) (hmax : 1 ≤ opts.max) :
    (checkRateLimit redis? m key opts now).1.limit = opts.max ∧
    1 ≤ (checkRateLimit redis? m key opts now).1.current ∧
    ((checkRateLimit redis? m key opts now).1.allowed = true ↔
      (checkRateLimit redis? m key opts now).1.current ≤ opts.max) ∧
    ((redis? = none ∨ ∃ r, redis? = some r ∧ r.failing = true) →
      memGet (checkRateLimit redis? m key opts now).2.2 key =
        some ⟨(checkRateLimit redis? m key opts now).1.current,
              (checkRateLimit redis? m key opts now).1.resetAtMs⟩) := by
  have hmem : (memCheck m key opts now).1.limit = opts.max ∧
      1 ≤ (memCheck m key opts now).1.current ∧
      ((memCheck m key opts now).1.allowed = true ↔
        (memCheck m key opts now).1.current ≤ opts.max) ∧
      memGet (memCheck m key opts now).2 key =
        some ⟨(memCheck m key opts now).1.current,
              (memCheck m key opts now).1.resetAtMs⟩ := by
    unfold memCheck
    match hg : memGet m key with
    | none => simp [memGet_memSet_self, hmax]
    | some existing =>
      by_cases hr : existing.resetAtMs ≤ now
      · simp [hr, memGet_memSet_self, hmax]
      · simp [hr, memGet_memSet_self]
  match redis? with
  | none => simpa [checkRateLimit] using hmem
  | some r =>
    by_cases hfail : r.failing = true
    · have heq : checkRateLimit (some r) m key opts now =
          ((memCheck m key opts now).1, some r, (memCheck m key opts now).2) := by
        simp [checkRateLimit, redisCheck, hfail]
      rw [heq]
      exact ⟨hmem.1, hmem.2.1, hmem.2.2.1, fun _ => hmem.2.2.2⟩
    · have heq : (checkRateLimit (some r) m key opts now).1 =
          ⟨decide ((redisLookup r.counts key).getD 0 + 1 ≤ opts.max),
           (redisLookup r.counts key).getD 0 + 1, opts.max,
           now + (match redisLookup r.ttls key with
             | some ttl => if 0 < ttl then ttl else opts.windowSec
             | none => opts.windowSec) * 1000⟩ := by
        simp [checkRateLimit, redisCheck, hfail]
      refine ⟨?_, ?_, ?_, ?_⟩
      · rw [heq]
      · rw [heq]; exact Nat.succ_le_succ (Nat.zero_le _)
      · rw [heq]; simp
      · rintro (h | ⟨r', hr', hfail'⟩)
        · exact Option.noConfusion h
        · injection hr' with h'
          subst h'
          exact absurd hfail' hfail

/-- C10 witness: a failing backend over a key already at count 2 in a live
window (`now = 10 < resetAt = 50`). -/
theorem check_rate_limit_invariant_witness :
    (checkRateLimit (some ⟨true, [], []⟩) [("k", ⟨2, 50⟩)] "k" ⟨3, 60⟩ 10).1.limit = 3 ∧
    1 ≤ (checkRateLimit (some ⟨true, [], []⟩) [("k", ⟨2, 50⟩)] "k" ⟨3, 60⟩ 10).1.current ∧
    memGet (checkRateLimit (some ⟨true, [], []⟩) [("k", ⟨2, 50⟩)] "k" ⟨3, 60⟩ 10).2.2 "k" =
      some ⟨(checkRateLimit (some ⟨true, [], []⟩) [("k", ⟨2, 50⟩)] "k" ⟨3, 60⟩ 10).1.current,
            (checkRateLimit (some ⟨true, [], []⟩) [("k", ⟨2, 50⟩)] "k" ⟨3, 60⟩ 10).1.resetAtMs⟩ :=
  ⟨(check_rate_limit_invariant (some ⟨true, [], []⟩) [("k", ⟨2, 50⟩)] "k" ⟨3, 60⟩ 10 (by decide)).1,
   (check_rate_limit_invariant (some ⟨true, [], []⟩) [("k", ⟨2, 50⟩)] "k" ⟨3, 60⟩ 10 (by decide)).2.1,
   (check_rate_limit_invariant (some ⟨true, [], []⟩) [("k", ⟨2, 50⟩)] "k" ⟨3, 60⟩ 10 (by decide)).2.2.2
     (Or.inr ⟨⟨true, [], []⟩, rfl, rfl⟩)⟩

/-! ## Theorems about `verifyProjectAccess` -/

/-- C2.  `verifyProjectAccess` is a total `Bool`-valued function (the model
returns a definite boolean on every input) and every lookup failure yields
`false`: unavailable handle, a throwing users query, an unknown user, a
throwing projects query, an unknown project, and a throwing collaborators
query all deny. -/
theorem verify_fails_closed :
    (∀ (userId : Nat) (projectId : String),
      verifyProjectAccess none userId projectId = false) ∧
    (∀ (db : Db) (userId : Nat) (projectId : String), db.failUsers = true →
      verifyProjectAccess (some db) userId projectId = false) ∧
    (∀ (db : Db) (userId : Nat) (projectId : String),
      queryUser db userId = .ok none →
      verifyProjectAccess (some db) userId projectId = false) ∧
    (∀ (db : Db) (userId : Nat) (projectId : String) (user : User),
      queryUser db userId = .ok (some user) → user.role ≠ "admin" →
      db.failProjects = true →
      verifyProjectAccess (some db) userId projectId = false) ∧
    (∀ (db : Db) (userId : Nat) (projectId : String) (user : User),
      queryUser db userId = .ok (some user) → user.role ≠ "admin" →
      queryProject db projectId = .ok none →
      verifyProjectAccess (some db) userId projectId = false) ∧
    (∀ (db : Db) (userId : Nat) (projectId : String) (user : User)
        (project : Project),
      queryUser db userId = .ok (some user) → user.role ≠ "admin" →
      queryProject db projectId = .ok (some project) →
      project.createdBy ≠ userId → db.failCollaborators = true →
      verifyProjectAccess (some db) userId projectId = false) := by
  refine ⟨?_, ?_, ?_, ?_, ?_, ?_⟩
  · intro userId projectId
    rfl
  · intro db userId projectId hfail
    simp [verifyProjectAccess, queryUser, hfail]
  · intro db userId projectId hq
    simp [verifyProjectAccess, hq]
  · intro db userId projectId user hq hrole hfail
    simp [verifyProjectAccess, hq, queryProject, hfail, hrole]
  · intro db userId projectId user hq hrole hp
    simp [verifyProjectAccess, hq, hp, hrole]
  · intro db userId projectId user project hq hrole hp howner hfail
    simp [verifyProjectAccess, hq, hp, queryCollaborator, hfail, hrole, howner]

/-- C2 witness: the unavailable-handle case and a throwing users-table
query both deny. -/
theorem verify_fails_closed_witness :
    verifyProjectAccess none 1 "p" = false ∧
    verifyProjectAccess
      (some { users := [], projects := [], collaborators := []
              artifacts := [], runs := [], events := [], failUsers := true }) 1 "p" = false :=
  ⟨verify_fails_closed.1 1 "p",
   verify_fails_closed.2.1
     { users := [], projects := [], collaborators := []
       artifacts := [], runs := [], events := [], failUsers := true } 1 "p" rfl⟩

/-- C3 counterexample.  In `staleCollabDb`, user 1 is not an admin, project
"p1" has no row, and an active collaboration row ("p1", 1) exists — the
claim's characterization says access is granted, but `verifyProjectAccess`
returns `false` (the project lookup short-circuits to deny before the
collaborators query runs). -/
theorem verify_iff_counterexample :
    verifyProjectAccess (some staleCollabDb) 1 "p1" = false ∧
    claimedAccessB staleCollabDb 1 "p1" = true := by
  refine ⟨by decide, by decide⟩

/-- C3 (amended: the collaboration branch additionally requires the project
row to exist, because the handler's project lookup short-circuits to deny).
For an existing principal and failure-free lookups, access is granted iff
the principal is an admin, or the first project row matching the id has
`createdBy` equal to the principal, or that project row exists and an
active collaboration row for (project, principal) exists; prepending an
active collaboration row flips a denied non-owner to granted, and a store
with no active row for the pair (and no ownership, no admin role) denies. -/
theorem verify_access_characterization :
    (∀ (db : Db) (userId : Nat) (projectId : String) (user : User),
      db.failUsers = false → db.failProjects = false → db.failCollaborators = false →
      db.users.find? (fun u => u.id == userId) = some user →
      (verifyProjectAccess (some db) userId projectId = true ↔
        (user.role = "admin" ∨
         ∃ project, db.projects.find? (fun p => p.id == projectId) = some project ∧
           (project.createdBy = userId ∨
            ∃ c ∈ db.collaborators,
              c.projectId = projectId ∧ c.userId = userId ∧ c.status = "active")))) ∧
    (∀ (db : Db) (userId : Nat) (projectId : String) (user : User) (project : Project),
      db.failUsers = false → db.failProjects = false → db.failCollaborators = false →
      db.users.find? (fun u => u.id == userId) = some user → user.role ≠ "admin" →
      db.projects.find? (fun p => p.id == projectId) = some project →
      project.createdBy ≠ userId →
      verifyProjectAccess
        (some { db with collaborators := ⟨projectId, userId, "active"⟩ :: db.collaborators })
        userId projectId = true) ∧
    (∀ (db : Db) (userId : Nat) (projectId : String) (user : User),
      db.failUsers = false → db.failProjects = false → db.failCollaborators = false →
      db.users.find? (fun u => u.id == userId) = some user → user.role ≠ "admin" →
      (∀ project, db.projects.find? (fun p => p.id == projectId) = some project →
        project.createdBy ≠ userId) →
      (∀ c ∈ db.collaborators,
        ¬ (c.projectId = projectId ∧ c.userId = userId ∧ c.status = "active")) →
      verifyProjectAccess (some db) userId projectId = false) := by
  refine ⟨?_, ?_, ?_⟩
  · intro db userId projectId user hfU hfP hfC hu
    by_cases hadmin : user.role = "admin"
    · simp [verifyProjectAccess, queryUser, hfU, hu, hadmin]
    · match hp : db.projects.find? (fun p => p.id == projectId) with
      | none =>
        simp [verifyProjectAccess, queryUser, hfU, hu, hadmin, queryProject, hfP, hp]
      | some project =>
        by_cases howner : project.createdBy = userId
        · simp [verifyProjectAccess, queryUser, hfU, hu, hadmin, queryProject, hfP, hp,
            howner]
        · match hc : db.collaborators.find? (fun c =>
              c.projectId == projectId && c.userId == userId && c.status == "active") with
          | some c =>
            have hmem := List.mem_of_find?_eq_some hc
            have hpred := List.find?_some hc
            simp only [Bool.and_eq_true, beq_iff_eq] at hpred
            simp only [verifyProjectAccess, queryUser, hfU, hu, queryProject, hfP, hp,
              queryCollaborator, hfC, hc, beq_iff_eq, hadmin, howner]
            constructor
            · intro _
              exact Or.inr ⟨project, rfl, Or.inr ⟨c, hmem, hpred.1.1, hpred.1.2, hpred.2⟩⟩
            · intro _
              simp [hadmin, howner]
          | none =>
            have hno : ∀ x ∈ db.collaborators,
                ¬ (x.projectId = projectId ∧ x.userId = userId ∧ x.status = "active") := by
              intro x hx hcontr
              have := List.find?_eq_none.mp hc x hx
              simp [hcontr.1, hcontr.2.1, hcontr.2.2] at this
            simp only [verifyProjectAccess, queryUser, hfU, hu, queryProject, hfP, hp,
              queryCollaborator, hfC, hc, beq_iff_eq, hadmin, howner]
            constructor
            · intro h
              exact absurd h (by simp; exact ⟨hadmin, howner⟩)
            · rintro (h | ⟨project', hproj', h' | ⟨c, hcmem, h1, h2, h3⟩⟩)
              · exact h.elim
              · injection hproj' with h''
                subst h''
                exact absurd h' howner
              · exact absurd ⟨h1, h2, h3⟩ (hno c hcmem)
  · intro db userId projectId user project hfU hfP hfC hu hadmin hp howner
    have hhead : (fun c : Collaborator =>
        c.projectId == projectId && c.userId == userId && c.status == "active")
        ⟨projectId, userId, "active"⟩ = true := by simp
    simp [verifyProjectAccess, queryUser, queryProject, queryCollaborator,
      hfU, hfP, hfC, hu, hp, List.find?, hhead, hadmin, howner]
  · intro db userId projectId user hfU hfP hfC hu hadmin hproj hcol
    match hp : db.projects.find? (fun p => p.id == projectId) with
    | none =>
      simp [verifyProjectAccess, queryUser, queryProject, hfU, hfP, hu, hp, hadmin]
    | some project =>
      have howner := hproj project hp
      have hc : db.collaborators.find? (fun c =>
          c.projectId == projectId && c.userId == userId && c.status == "active") = none := by
        rw [List.find?_eq_none]
        intro x hx
        simp only [Bool.and_eq_true, beq_iff_eq, not_and]
        intro h1 h2
        exact absurd ⟨h1.1, h1.2, h2⟩ (hcol x hx)
      simp [verifyProjectAccess, queryUser, queryProject, queryCollaborator,
        hfU, hfP, hfC, hu, hp, hc, hadmin, howner]

/-- C3 witness (for the amended characterization): an admin principal is
granted access, and a granted non-owner is revoked-to-denied on a store
with no active collaboration row. -/
theorem verify_access_characterization_witness :
    verifyProjectAccess
      (some { users := [⟨1, "admin"⟩], projects := [], collaborators := []
              artifacts := [], runs := [], events := [] }) 1 "p" = true ∧
    verifyProjectAccess
      (some { users := [⟨2, "user"⟩], projects := []
              collaborators := [⟨"p", 2, "revoked"⟩]
              artifacts := [], runs := [], events := [] }) 2 "p" = false :=
  ⟨(verify_access_characterization.1
      { users := [⟨1, "admin"⟩], projects := [], collaborators := []
        artifacts := [], runs := [], events := [] } 1 "p" ⟨1, "admin"⟩
      rfl rfl rfl (by decide)).mpr (Or.inl rfl),
   verify_access_characterization.2.2
      { users := [⟨2, "user"⟩], projects := []
        collaborators := [⟨"p", 2, "revoked"⟩]
        artifacts := [], runs := [], events := [] } 2 "p" ⟨2, "user"⟩
      rfl rfl rfl (by decide) (by decide)
      (by intro project hp; simp [List.find?] at hp)
      (by intro c hc; simp at hc; subst hc; decide)⟩

/-! ## Theorems about the artifact resolution pipeline -/

/-- C1.  For a stored non-`s3://` locator whose lexical canonicalization
against the root (the handler's `path.resolve`) is not prefixed by the
canonical root with a trailing separator: (a) the handler never streams any
file and never consults the filesystem at all (its result is the same for
every `fileKind`); (b) when the request reaches the local branch the result
is exactly the 403 `invalidPath` outcome; and the concrete locators
`"../../etc/passwd"` (root `/tmp/artifacts`) and
`"../artifacts-other/secret.txt"` (root `/data/artifacts`, the sibling
directory collision) are rejected with 403 by the full handler with the
real verifier. -/
theorem artifact_path_containment :
    (∀ (uid : Nat) (db : Db) (dir : String) (fileKind : String → Option Bool)
       (fileKind' : String → Option Bool) (sign : String → String)
       (access : Nat → String → Bool) (artifactId : String) (a : Artifact),
      db.artifacts.find? (fun x => x.id == artifactId) = some a →
      strStartsWith a.path "s3://" = false →
      strStartsWith (pathResolve (dir ++ "/") a.path) (dir ++ "/") = false →
      (∀ lp h, artifactsGet (some uid) (some db) dir fileKind sign access artifactId ≠
        ArtifactOutcome.streamFile lp h) ∧
      artifactsGet (some uid) (some db) dir fileKind sign access artifactId =
        artifactsGet (some uid) (some db) dir fileKind' sign access artifactId) ∧
    (∀ (uid : Nat) (db : Db) (dir : String) (fileKind : String → Option Bool)
       (sign : String → String) (access : Nat → String → Bool) (artifactId : String)
       (a : Artifact) (run : Run) (pid : String),
      db.artifacts.find? (fun x => x.id == artifactId) = some a →
      db.runs.find? (fun r => r.id == a.runId) = some run →
      run.projectId = some pid → pid ≠ "" → access uid pid = true →
      strStartsWith a.path "s3://" = false →
      strStartsWith (pathResolve (dir ++ "/") a.path) (dir ++ "/") = false →
      artifactsGet (some uid) (some db) dir fileKind sign access artifactId =
        ArtifactOutcome.invalidPath) ∧
    artifactsGetReal (some 1) (some traversalDb) "/tmp/artifacts" (fun _ => some true)
      (fun s => s) "t1" = ArtifactOutcome.invalidPath ∧
    artifactsGetReal (some 1) (some siblingDb) "/data/artifacts" (fun _ => some true)
      (fun s => s) "s1" = ArtifactOutcome.invalidPath := by
  refine ⟨?_, ?_, by decide, by decide⟩
  · intro uid db dir fileKind fileKind' sign access artifactId a ha hs3 hesc
    constructor
    · intro lp h
      cases hr : db.runs.find? (fun r => r.id == a.runId) with
      | none => simp [artifactsGet, ha, hr]
      | some run =>
        cases hpid : run.projectId with
        | none => simp [artifactsGet, ha, hr, hpid]
        | some pid =>
          by_cases hemp : pid = ""
          · simp [artifactsGet, ha, hr, hpid, hemp]
          · by_cases hacc : access uid pid = false
            · simp [artifactsGet, ha, hr, hpid, hemp, hacc]
            · simp [artifactsGet, ha, hr, hpid, hemp, hacc, hs3, hesc]
    · cases hr : db.runs.find? (fun r => r.id == a.runId) with
      | none => simp [artifactsGet, ha, hr]
      | some run =>
        cases hpid : run.projectId with
        | none => simp [artifactsGet, ha, hr, hpid]
        | some pid =>
          by_cases hemp : pid = ""
          · simp [artifactsGet, ha, hr, hpid, hemp]
          · by_cases hacc : access uid pid = false
            · simp [artifactsGet, ha, hr, hpid, hemp, hacc]
            · simp [artifactsGet, ha, hr, hpid, hemp, hacc, hs3, hesc]
  · intro uid db dir fileKind sign access artifactId a run pid ha hr hpid hemp hacc hs3 hesc
    simp [artifactsGet, ha, hr, hpid, hemp, hacc, hs3, hesc]

/-- C1 witness: the general 403 branch applied to the concrete traversal
store. -/
theorem artifact_path_containment_witness :
    artifactsGet (some 1) (some traversalDb) "/tmp/artifacts" (fun _ => some true)
      (fun s => s) (fun _ _ => true) "t1" = ArtifactOutcome.invalidPath :=
  artifact_path_containment.2.1 1 traversalDb "/tmp/artifacts" (fun _ => some true)
    (fun s => s) (fun _ _ => true) "t1"
    ⟨"t1", 7, "file", "../../etc/passwd", none, none, none⟩
    ⟨7, some "p1", 1, "done", none, none, none⟩ "p1"
    (by decide) (by decide) rfl (by decide) rfl (by decide) (by decide)

/-- C4.  A run with a null `projectId` is never visible: the artifact
handler answers the 403 `runNotAttached` outcome for every principal and
every access function (the verifier is never consulted — the result is the
same for any two access functions), and `getLiveState` never returns the
projection, is likewise verifier-independent, and answers the
PRECONDITION_FAILED `runNotAttached` outcome whenever the rate limiter
admitted the call. -/
theorem null_project_never_visible :
    (∀ (uid : Nat) (db : Db) (dir : String) (fileKind : String → Option Bool)
       (sign : String → String) (access access' : Nat → String → Bool)
       (artifactId : String) (a : Artifact) (run : Run),
      db.artifacts.find? (fun x => x.id == artifactId) = some a →
      db.runs.find? (fun r => r.id == a.runId) = some run →
      run.projectId = none →
      artifactsGet (some uid) (some db) dir fileKind sign access artifactId =
        ArtifactOutcome.runNotAttached ∧
      artifactsGet (some uid) (some db) dir fileKind sign access artifactId =
        artifactsGet (some uid) (some db) dir fileKind sign access' artifactId) ∧
    (∀ (db : Db) (redis? : Option RedisState) (m : MemMap) (now uid : Nat)
       (access access' : Nat → String → Bool) (runId : Nat) (run : Run),
      db.runs.find? (fun r => r.id == runId) = some run →
      run.projectId = none →
      (∀ proj, (getLiveState (some db) redis? m now uid access runId).1 ≠
        LiveOutcome.ok proj) ∧
      (getLiveState (some db) redis? m now uid access runId).1 =
        (getLiveState (some db) redis? m now uid access' runId).1 ∧
      ((checkRateLimit redis? m ("rl:live_poll:u:" ++ toString uid) ⟨90, 60⟩ now).1.allowed
          = true →
        (getLiveState (some db) redis? m now uid access runId).1 =
          LiveOutcome.runNotAttached)) := by
  constructor
  · intro uid db dir fileKind sign access access' artifactId a run ha hr hpid
    constructor
    · simp [artifactsGet, ha, hr, hpid]
    · simp [artifactsGet, ha, hr, hpid]
  · intro db redis? m now uid access access' runId run hrun hpid
    by_cases hallow :
        (checkRateLimit redis? m ("rl:live_poll:u:" ++ toString uid) ⟨90, 60⟩ now).1.allowed
          = false
    · refine ⟨?_, ?_, ?_⟩
      · intro proj
        simp [getLiveState, hallow]
      · simp [getLiveState, hallow]
      · intro h
        rw [h] at hallow
        exact absurd hallow (by simp)
    · refine ⟨?_, ?_, ?_⟩
      · intro proj
        simp [getLiveState, hallow, hrun, hpid]
      · simp [getLiveState, hallow, hrun, hpid]
      · intro _
        simp [getLiveState, hallow, hrun, hpid]

/-- C4 witness: the run-creator admin, denied on the unattached store. -/
theorem null_project_never_visible_witness :
    artifactsGet (some 1) (some unattachedDb) "/tmp/artifacts" (fun _ => some true)
      (fun s => s) (fun _ _ => true) "u1" = ArtifactOutcome.runNotAttached :=
  (null_project_never_visible.1 1 unattachedDb "/tmp/artifacts" (fun _ => some true)
    (fun s => s) (fun _ _ => true) (fun _ _ => true) "u1"
    ⟨"u1", 7, "file", "x.bin", none, none, none⟩
    ⟨7, none, 1, "done", none, none, none⟩
    (by decide) (by decide) rfl).1

/-- C7 counterexample.  A stored filename containing a quote and CR/LF is
embedded verbatim in the Content-Disposition header value: the streamed
headers contain the raw CR, LF and an interior quote (three quote
characters in the value) and no backslash at all, so the header-injecting
characters are neither stripped nor escaped. -/
theorem disposition_unsanitized_counterexample :
    artifactsGetReal (some 1) (some crlfNameDb) "/tmp/artifacts" (fun _ => some true)
      (fun s => s) "g1" =
      ArtifactOutcome.streamFile "/tmp/artifacts/logs/x.txt"
        ⟨"text/plain", 5, "inline; filename=\"a\"b\r\nX: y\"", "private, max-age=3600"⟩ ∧
    (contentDispositionFor (some crlfName) "g1").data.contains '\r' = true ∧
    (contentDispositionFor (some crlfName) "g1").data.contains '\n' = true ∧
    ((contentDispositionFor (some crlfName) "g1").data.filter (fun c => c = '"')).length
      = 3 ∧
    (contentDispositionFor (some crlfName) "g1").data.contains '\\' = false := by
  refine ⟨by decide, by decide, by decide, by decide, by decide⟩

/-- C7 (amended: headers are derived strictly from the stored artifact row
and the id it was looked up by, but the disposition filename is embedded
verbatim — characters that could inject header fields are not stripped or
escaped).  Every streamed response's headers equal `headersFor` of the
stored row, and the disposition value is the verbatim interpolation of the
stored filename. -/
theorem headers_from_stored_metadata :
    (∀ (user? : Option Nat) (db? : Option Db) (dir : String)
       (fileKind : String → Option Bool) (sign : String → String)
       (access : Nat → String → Bool) (artifactId lp : String) (h : RespHeaders),
      artifactsGet user? db? dir fileKind sign access artifactId =
        ArtifactOutcome.streamFile lp h →
      ∃ db a, db? = some db ∧
        db.artifacts.find? (fun x => x.id == artifactId) = some a ∧
        h = headersFor a artifactId) ∧
    (∀ (name artifactId : String), name ≠ "" →
      contentDispositionFor (some name) artifactId =
        "inline; filename=\"" ++ name ++ "\"") := by
  constructor
  · intro user? db? dir fileKind sign access artifactId lp h hres
    match user? with
    | none => exact absurd hres (by simp [artifactsGet])
    | some uid =>
      match db? with
      | none => exact absurd hres (by simp [artifactsGet])
      | some db =>
        cases ha : db.artifacts.find? (fun x => x.id == artifactId) with
        | none => exact absurd hres (by simp [artifactsGet, ha])
        | some a =>
          refine ⟨db, a, rfl, ha, ?_⟩
          cases hr : db.runs.find? (fun r => r.id == a.runId) with
          | none => exact absurd hres (by simp [artifactsGet, ha, hr])
          | some run =>
            cases hpid : run.projectId with
            | none => exact absurd hres (by simp [artifactsGet, ha, hr, hpid])
            | some pid =>
              by_cases hemp : pid = ""
              · exact absurd hres (by simp [artifactsGet, ha, hr, hpid, hemp])
              · by_cases hacc : access uid pid = false
                · exact absurd hres (by simp [artifactsGet, ha, hr, hpid, hemp, hacc])
                · by_cases hs3 : strStartsWith a.path "s3://" = true
                  · exact absurd hres (by simp [artifactsGet, ha, hr, hpid, hemp, hacc, hs3])
                  · by_cases hesc :
                        strStartsWith (pathResolve (dir ++ "/") a.path) (dir ++ "/") = false
                    · exact absurd hres
                        (by simp [artifactsGet, ha, hr, hpid, hemp, hacc, hs3, hesc])
                    · cases hfk : fileKind (pathResolve (dir ++ "/") a.path) with
                      | none =>
                        exact absurd hres
                          (by simp [artifactsGet, ha, hr, hpid, hemp, hacc, hs3, hesc, hfk])
                      | some isFile =>
                        cases isFile with
                        | false =>
                          exact absurd hres
                            (by simp [artifactsGet, ha, hr, hpid, hemp, hacc, hs3, hesc, hfk])
                        | true =>
                          have : artifactsGet (some uid) (some db) dir fileKind sign access
                              artifactId =
                              ArtifactOutcome.streamFile (pathResolve (dir ++ "/") a.path)
                                (headersFor a artifactId) := by
                            simp [artifactsGet, ha, hr, hpid, hemp, hacc, hs3, hesc, hfk]
                          rw [this] at hres
                          injection hres with h1 h2
                          exact h2.symm
  · intro name artifactId hne
    simp [contentDispositionFor, orDefault, hne]

/-- C7 witness: a streamed response on the concrete store, and the verbatim
disposition for an ordinary filename. -/
theorem headers_from_stored_metadata_witness :
    (∃ db a, (some crlfNameDb : Option Db) = some db ∧
      db.artifacts.find? (fun x => x.id == "g1") = some a ∧
      headersFor crlfArtifact "g1" = headersFor a "g1") ∧
    contentDispositionFor (some "report.pdf") "a1" = "inline; filename=\"report.pdf\"" :=
  ⟨headers_from_stored_metadata.1 (some 1) (some crlfNameDb) "/tmp/artifacts"
      (fun _ => some true) (fun s => s) (fun _ _ => true) "g1"
      "/tmp/artifacts/logs/x.txt" (headersFor crlfArtifact "g1") (by decide),
   headers_from_stored_metadata.2 "report.pdf" "a1" (by decide)⟩

/-- C8.  The handler's checks run in a fixed short-circuiting order, each
exit distinct: no principal → 401 regardless of everything else; unknown
artifact → 404; unknown parent run → 404; null (or empty) run projectId →
403 for every access function; denied access → 403; only then the locator
scheme is examined — `s3://` yields the redirect to the signed URL, and
otherwise the local branch runs the containment check (403), the stat
check (404) and the stream (200).  Each conjunct quantifies over all data
consulted by later checks only, so a later check is never reached when an
earlier one fails. -/
theorem resolve_check_order :
    (∀ (db? : Option Db) (dir : String) (fileKind : String → Option Bool)
       (sign : String → String) (access : Nat → String → Bool) (artifactId : String),
      artifactsGet none db? dir fileKind sign access artifactId =
        ArtifactOutcome.unauthorized) ∧
    (∀ (uid : Nat) (db : Db) (dir : String) (fileKind : String → Option Bool)
       (sign : String → String) (access : Nat → String → Bool) (artifactId : String),
      db.artifacts.find? (fun x => x.id == artifactId) = none →
      artifactsGet (some uid) (some db) dir fileKind sign access artifactId =
        ArtifactOutcome.notFoundArtifact) ∧
    (∀ (uid : Nat) (db : Db) (dir : String) (fileKind : String → Option Bool)
       (sign : String → String) (access : Nat → String → Bool) (artifactId : String)
       (a : Artifact),
      db.artifacts.find? (fun x => x.id == artifactId) = some a →
      db.runs.find? (fun r => r.id == a.runId) = none →
      artifactsGet (some uid) (some db) dir fileKind sign access artifactId =
        ArtifactOutcome.notFoundRun) ∧
    (∀ (uid : Nat) (db : Db) (dir : String) (fileKind : String → Option Bool)
       (sign : String → String) (access : Nat → String → Bool) (artifactId : String)
       (a : Artifact) (run : Run),
      db.artifacts.find? (fun x => x.id == artifactId) = some a →
      db.runs.find? (fun r => r.id == a.runId) = some run →
      run.projectId = none →
      artifactsGet (some uid) (some db) dir fileKind sign access artifactId =
        ArtifactOutcome.runNotAttached) ∧
    (∀ (uid : Nat) (db : Db) (dir : String) (fileKind : String → Option Bool)
       (sign : String → String) (access : Nat → String → Bool) (artifactId : String)
       (a : Artifact) (run : Run) (pid : String),
      db.artifacts.find? (fun x => x.id == artifactId) = some a →
      db.runs.find? (fun r => r.id == a.runId) = some run →
      run.projectId = some pid → pid ≠ "" → access uid pid = false →
      artifactsGet (some uid) (some db) dir fileKind sign access artifactId =
        ArtifactOutcome.accessDenied) ∧
    (∀ (uid : Nat) (db : Db) (dir : String) (fileKind : String → Option Bool)
       (sign : String → String) (access : Nat → String → Bool) (artifactId : String)
       (a : Artifact) (run : Run) (pid : String),
      db.artifacts.find? (fun x => x.id == artifactId) = some a →
      db.runs.find? (fun r => r.id == a.runId) = some run →
      run.projectId = some pid → pid ≠ "" → access uid pid = true →
      strStartsWith a.path "s3://" = true →
      artifactsGet (some uid) (some db) dir fileKind sign access artifactId =
        ArtifactOutcome.redirect (sign a.path)) ∧
    (∀ (uid : Nat) (db : Db) (dir : String) (fileKind : String → Option Bool)
       (sign : String → String) (access : Nat → String → Bool) (artifactId : String)
       (a : Artifact) (run : Run) (pid : String),
      db.artifacts.find? (fun x => x.id == artifactId) = some a →
      db.runs.find? (fun r => r.id == a.runId) = some run →
      run.projectId = some pid → pid ≠ "" → access uid pid = true →
      strStartsWith a.path "s3://" = false →
      artifactsGet (some uid) (some db) dir fileKind sign access artifactId =
        (if strStartsWith (pathResolve (dir ++ "/") a.path) (dir ++ "/") = false then
          ArtifactOutcome.invalidPath
        else match fileKind (pathResolve (dir ++ "/") a.path) with
          | none => ArtifactOutcome.fileNotFound
          | some false => ArtifactOutcome.fileNotFound
          | some true =>
            ArtifactOutcome.streamFile (pathResolve (dir ++ "/") a.path)
              (headersFor a artifactId))) := by
  refine ⟨?_, ?_, ?_, ?_, ?_, ?_, ?_⟩
  · intro db? dir fileKind sign access artifactId
    rfl
  · intro uid db dir fileKind sign access artifactId ha
    simp [artifactsGet, ha]
  · intro uid db dir fileKind sign access artifactId a ha hr
    simp [artifactsGet, ha, hr]
  · intro uid db dir fileKind sign access artifactId a run ha hr hpid
    simp [artifactsGet, ha, hr, hpid]
  · intro uid db dir fileKind sign access artifactId a run pid ha hr hpid hemp hacc
    simp [artifactsGet, ha, hr, hpid, hemp, hacc]
  · intro uid db dir fileKind sign access artifactId a run pid ha hr hpid hemp hacc hs3
    simp [artifactsGet, ha, hr, hpid, hemp, hacc, hs3]
  · intro uid db dir fileKind sign access artifactId a run pid ha hr hpid hemp hacc hs3
    simp [artifactsGet, ha, hr, hpid, hemp, hacc, hs3]

/-- C8 witness: an unknown artifact id on the concrete store yields the 404
exit. -/
theorem resolve_check_order_witness :
    artifactsGet (some 1) (some traversalDb) "/tmp/artifacts" (fun _ => some true)
      (fun s => s) (fun _ _ => true) "zz" = ArtifactOutcome.notFoundArtifact :=
  resolve_check_order.2.1 1 traversalDb "/tmp/artifacts" (fun _ => some true)
    (fun s => s) (fun _ _ => true) "zz" (by decide)

end AgentStack
